import Mathlib

/-!
Verification of the message-screening and alerting pipeline of the
Crisp tone/profanity plugin server.

The JavaScript source (`src/server.js`, first variant, and the persisted
single-tenant variant in `src/unnamed/part_001`) is shallowly embedded:
JavaScript numbers become an inductive `JSNumber` (finite rationals, NaN and
the two infinities), strings stay `String` with character-list operations
mirroring the exact JS string methods used, and the stateful HTTP handler
and the async dispatch functions become pure state-passing functions over
explicit environments that fix the outcome of every network call.
-/

namespace CrispTone

/-- A JavaScript number: a finite value (modelled as a rational), `NaN`,
`Infinity` or `-Infinity`. -/
inductive JSNumber where
  | fin (q : ℚ)
  | nan
  | inf
  | neginf
deriving DecidableEq

/-- JavaScript `<` on numbers: any comparison involving `NaN` is false. -/
def jlt : JSNumber → JSNumber → Bool
  | .nan, _ => false
  | _, .nan => false
  | .fin a, .fin b => decide (a < b)
  | .fin _, .inf => true
  | .fin _, .neginf => false
  | .inf, _ => false
  | .neginf, .neginf => false
  | .neginf, .fin _ => true
  | .neginf, .inf => true

/-- JavaScript `<=` on numbers: any comparison involving `NaN` is false. -/
def jle : JSNumber → JSNumber → Bool
  | .nan, _ => false
  | _, .nan => false
  | .fin a, .fin b => decide (a ≤ b)
  | .fin _, .inf => true
  | .fin _, .neginf => false
  | .inf, .inf => true
  | .inf, _ => false
  | .neginf, _ => true

/-- JavaScript `===` on numbers: `NaN === NaN` is false. -/
def jeq : JSNumber → JSNumber → Bool
  | .nan, _ => false
  | _, .nan => false
  | .fin a, .fin b => decide (a = b)
  | .inf, .inf => true
  | .neginf, .neginf => true
  | _, _ => false

/-- Translation of `getSentimentSummary` from `src/server.js` (lines 171-177): the fixed
five-bucket mapping from a sentiment comparative score to a label. -/
def getSentimentSummary (score : JSNumber) : String :=
  if jle score (.fin (-1)) then "Very Negative"
  else if jlt score (.fin 0) then "Negative"
  else if jeq score (.fin 0) then "Neutral"
  else if jlt score (.fin 1) then "Positive"
  else "Very Positive"

/-- The five-bucket score-label mapping exactly as the spec words it
(written from the spec, to be compared with `getSentimentSummary`):
score ≤ -1 is Very Negative, -1 < score < 0 is Negative, score = 0 is
Neutral, 0 < score < 1 is Positive, score ≥ 1 is Very Positive. -/
def sentimentLabelSpec (q : ℚ) : String :=
  if q ≤ -1 then "Very Negative"
  else if -1 < q ∧ q < 0 then "Negative"
  else if q = 0 then "Neutral"
  else if 0 < q ∧ q < 1 then "Positive"
  else "Very Positive"

/-- The ASCII uppercase/lowercase letter pairs, used to model JavaScript
`toLowerCase()` on the ASCII range (the only range the word lists and
tags in this code base use). -/
def upperLowerTable : List (Char × Char) :=
  [('A', 'a'), ('B', 'b'), ('C', 'c'), ('D', 'd'), ('E', 'e'), ('F', 'f'),
   ('G', 'g'), ('H', 'h'), ('I', 'i'), ('J', 'j'), ('K', 'k'), ('L', 'l'),
   ('M', 'm'), ('N', 'n'), ('O', 'o'), ('P', 'p'), ('Q', 'q'), ('R', 'r'),
   ('S', 's'), ('T', 't'), ('U', 'u'), ('V', 'v'), ('W', 'w'), ('X', 'x'),
   ('Y', 'y'), ('Z', 'z')]

/-- JavaScript `toLowerCase()` on a single character (ASCII model). -/
def jsToLower (c : Char) : Char :=
  match upperLowerTable.find? (fun p => p.1 = c) with
  | some p => p.2
  | none => c

/-- JavaScript `toLowerCase()` on a string (ASCII model). -/
def lowerStr (s : String) : String :=
  ⟨s.data.map jsToLower⟩

/-- Whitespace test used by JS `trim()` and the `\s` character class
(modelled on the ASCII whitespace characters). -/
def isWS (c : Char) : Bool :=
  c.isWhitespace

/-- Leading and trailing whitespace removal on a character list. -/
def trimChars (l : List Char) : List Char :=
  (l.dropWhile isWS).rdropWhile isWS

/-- JavaScript `trim()`. -/
def jsTrim (s : String) : String :=
  ⟨trimChars s.data⟩

/-- The `\w` character class of JS regexes: ASCII letters, digits and
underscore. -/
def isWordChar (c : Char) : Bool :=
  c.isAlphanum || c = '_'

/-- Maximal runs of `\w` characters, i.e. the matches of `/\b\w+\b/g`.
The first argument accumulates the current (reversed) token. -/
def tokenizeAux : List Char → List Char → List (List Char)
  | [], [] => []
  | [], cur => [cur.reverse]
  | c :: rest, cur =>
    if isWordChar c then tokenizeAux rest (c :: cur)
    else if cur = [] then tokenizeAux rest []
    else cur.reverse :: tokenizeAux rest []

/-- Translation of `message.match(/\b\w+\b/g) || []` from `getAllProfanitiesInMessage`. -/
def jsTokens (s : String) : List String :=
  (tokenizeAux s.data []).map fun l => ⟨l⟩

/-- A JavaScript value as far as the config/webhook handlers inspect one:
a string, a number, a boolean, `null`, or anything else (object, array...).
`undefined` is represented by `Option.none` at the use sites. -/
inductive JSVal where
  | vstr (s : String)
  | vnum (n : JSNumber)
  | vbool (b : Bool)
  | vnull
  | vother
deriving DecidableEq

/-- Translation of `getAllProfanitiesInMessage` from `src/server.js` (lines 135-156).
The word list parameter stands for `profanity.list` of the profanity
library (`none` models a missing/non-array list). Returns the matched
tokens in order, preserving their original casing. -/
def getAllProfanitiesInMessage (wordList : Option (List JSVal)) (message : JSVal) :
    List String :=
  match message with
  | .vstr s =>
    if s = "" then []
    else
      match wordList with
      | none => []
      | some l =>
        if l = [] then []
        else
          let profaneList := (l.filterMap fun v =>
            match v with
            | .vstr w => if w = "" then none else some (lowerStr w)
            | _ => none)
          if profaneList = [] then []
          else (jsTokens s).filter fun t => profaneList.contains (lowerStr t)
  | _ => []

/-- The scanner on a plain string word list and a plain string message. -/
def scan (wordList : List String) (msg : String) : List String :=
  getAllProfanitiesInMessage (some (wordList.map .vstr)) (.vstr msg)

/-- Model of the external profanity library's `profanity.exists(msg)`:
a whole-word, case-insensitive match of the message against the word
list, the §4.1 black-box scanner contract.  The library is an external
dependency, so its check is modelled with the same word-boundary
tokenization the in-repo scanner uses. -/
def profanityExistsM (wordList : List String) (msg : String) : Bool :=
  !(scan wordList msg).isEmpty

/-- Translation of `content.replace(/[^a-zA-Z0-9\s]/g, '')` from `processMessage`
(line 398): strips every character that is neither alphanumeric nor
whitespace. -/
def normalizeContent (s : String) : String :=
  ⟨s.data.filter fun c => c.isAlphanum || isWS c⟩

/-- Translation of `[...new Set(xs)]` on a string array: dedupe by exact (case-sensitive)
equality, keeping the first occurrence of each value. -/
def jsDedupGo (seen : List String) : List String → List String
  | [] => []
  | x :: xs => if x ∈ seen then jsDedupGo seen xs else x :: jsDedupGo (x :: seen) xs

/-- JS `Set`-based deduplication of a string array. -/
def jsDedup (l : List String) : List String :=
  jsDedupGo [] l

/-- The plugin configuration record (the persisted single-tenant variant,
`src/unnamed/part_001`): tag to apply, sentiment threshold, Slack toggle,
Slack webhook URL and the highlight toggle. -/
structure PluginConfig where
  tagToApply : String
  negativeThreshold : JSNumber
  slackEnabled : Bool
  slackWebhookUrl : String
  highlightProfanity : Bool
deriving DecidableEq

/-- The default configuration materialized when no config file exists and
none of the optional environment variables are set
(`src/unnamed/part_001`, lines 90-98). -/
def defaultPluginConfig : PluginConfig :=
  { tagToApply := "profanity-alert"
    negativeThreshold := .fin 0
    slackEnabled := false
    slackWebhookUrl := ""
    highlightProfanity := false }

/-- The body of a `POST /plugin-config` request: each field is either
absent (`none`) or present with some JavaScript value. -/
structure ConfigRequest where
  tagToApply : Option JSVal
  negativeThreshold : Option JSVal
  slackEnabled : Option JSVal
  slackWebhookUrl : Option JSVal
  highlightProfanity : Option JSVal
deriving DecidableEq

/-- The handler's running state while it validates the request fields:
the (mutated-in-place) `pluginConfig`, the `updated` flag and the
`errors` array. -/
structure UpdSt where
  cfg : PluginConfig
  updated : Bool
  errors : List String
deriving DecidableEq

/-- The `tagToApply` branch of the handler (`part_001` lines 140-145):
a non-empty-after-trim string is applied immediately, any other defined
value pushes an error. -/
def applyTagField (st : UpdSt) (v : Option JSVal) : UpdSt :=
  match v with
  | none => st
  | some (.vstr t) =>
    if jsTrim t ≠ "" then
      { st with cfg := { st.cfg with tagToApply := jsTrim t }, updated := true }
    else { st with errors := st.errors ++ ["tagToApply must be a non-empty string."] }
  | some _ => { st with errors := st.errors ++ ["tagToApply must be a non-empty string."] }

/-- The `negativeThreshold` branch (`part_001` lines 147-152): any finite
number is applied immediately, any other defined value pushes an error. -/
def applyThresholdField (st : UpdSt) (v : Option JSVal) : UpdSt :=
  match v with
  | none => st
  | some (.vnum (.fin q)) =>
    { st with cfg := { st.cfg with negativeThreshold := .fin q }, updated := true }
  | some _ => { st with errors := st.errors ++ ["negativeThreshold must be a number."] }

/-- The `slackEnabled` branch (`part_001` lines 154-159). -/
def applySlackEnabledField (st : UpdSt) (v : Option JSVal) : UpdSt :=
  match v with
  | none => st
  | some (.vbool b) =>
    { st with cfg := { st.cfg with slackEnabled := b }, updated := true }
  | some _ => { st with errors := st.errors ++ ["slackEnabled must be a boolean."] }

/-- The `slackWebhookUrl` branch (`part_001` lines 162-167): any string
(empty allowed) is trimmed and applied. -/
def applySlackUrlField (st : UpdSt) (v : Option JSVal) : UpdSt :=
  match v with
  | none => st
  | some (.vstr u) =>
    { st with cfg := { st.cfg with slackWebhookUrl := jsTrim u }, updated := true }
  | some _ => { st with errors := st.errors ++ ["slackWebhookUrl must be a string."] }

/-- The `highlightProfanity` branch (`part_001` lines 169-174). -/
def applyHighlightField (st : UpdSt) (v : Option JSVal) : UpdSt :=
  match v with
  | none => st
  | some (.vbool b) =>
    { st with cfg := { st.cfg with highlightProfanity := b }, updated := true }
  | some _ => { st with errors := st.errors ++ ["highlightProfanity must be a boolean."] }

/-- Outcome of one `POST /plugin-config` request: the in-memory
`pluginConfig` after the handler ran, whether `savePluginConfig` (the
write to the persistent store) was invoked, and the HTTP status and
error list of the response. -/
structure PostResult where
  memConfig : PluginConfig
  saved : Bool
  status : Nat
  errors : List String
deriving DecidableEq

/-- The five field-validation branches of the `POST /plugin-config`
handler, run in source order, threading the live `pluginConfig`, the
`updated` flag and the `errors` array. -/
def configFieldSteps (cfg : PluginConfig) (req : ConfigRequest) : UpdSt :=
  applyHighlightField
    (applySlackUrlField
      (applySlackEnabledField
        (applyThresholdField
          (applyTagField ⟨cfg, false, []⟩ req.tagToApply)
          req.negativeThreshold)
        req.slackEnabled)
      req.slackWebhookUrl)
    req.highlightProfanity

/-- The `POST /plugin-config` handler of `src/unnamed/part_001`
(lines 134-192).  Fields are validated in source order, each valid field
mutating the live `pluginConfig` as it is checked; if any error was
collected the response is 400 and the file write is skipped, otherwise a
write occurs iff something updated. -/
def postPluginConfig (cfg : PluginConfig) (req : ConfigRequest) : PostResult :=
  if (configFieldSteps cfg req).errors ≠ [] then
    ⟨(configFieldSteps cfg req).cfg, false, 400, (configFieldSteps cfg req).errors⟩
  else if (configFieldSteps cfg req).updated then
    ⟨(configFieldSteps cfg req).cfg, true, 200, []⟩
  else ⟨(configFieldSteps cfg req).cfg, false, 400, []⟩

/-- The character class `[.*+?^${}()|[\]\\]` of the escape step in
`highlightProfanity` (`src/server.js` line 164): the regex
metacharacters. -/
def isRegexMeta (c : Char) : Bool :=
  c ∈ ['.', '*', '+', '?', '^', '$', '{', '}', '(', ')', '|', '[', ']', '\\']

/-- Translation of `word.replace(/[.*+?^${}()|[\]\\]/g, '\\$&')`: prefix every regex
metacharacter with a backslash. -/
def escapeRegExp (w : String) : String :=
  ⟨w.data.flatMap fun c => if isRegexMeta c then ['\\', c] else [c]⟩

/-- Interpret a regex pattern body that consists only of literal
characters and backslash-escaped metacharacters, returning the literal
character sequence it matches; any other construct (an unescaped
metacharacter, a trailing backslash, an escape that is not a plain
literal in JS regex syntax) yields `none`. -/
def regexLiteralChars : List Char → Option (List Char)
  | [] => some []
  | c :: rest =>
    if c = '\\' then
      match rest with
      | [] => none
      | d :: rest2 => if isRegexMeta d then (regexLiteralChars rest2).map (d :: ·) else none
    else if isRegexMeta c then none
    else (regexLiteralChars rest).map (c :: ·)

/-- Case-insensitive (JS `i` flag, ASCII model) test that `lit` is a
prefix of `text`. -/
def ciHeadMatch : List Char → List Char → Bool
  | [], _ => true
  | _ :: _, [] => false
  | a :: as, b :: bs => jsToLower a = jsToLower b && ciHeadMatch as bs

/-- Whether the position between the two given characters (`none` at the
ends of the string) is a `\b` word boundary: exactly one side is a `\w`
character. -/
def isBoundary (a b : Option Char) : Bool :=
  (match a with | some c => isWordChar c | none => false)
    != (match b with | some c => isWordChar c | none => false)

/-- One pass of `text.replace(regex, m => "**" + m + "**")` where `regex`
is `/\b<lit escaped literally>\b/gi`: scan left to right, and at every
word-boundary position where `lit` matches case-insensitively and is
followed by a word boundary, wrap the matched surface in `**`; matching
resumes after the match.  `prev` is the character just before the scan
position; `fuel` bounds the recursion (a call with `fuel = text.length`
never exhausts it because every step consumes at least one character for
non-empty `lit`). -/
def replaceScan : Nat → List Char → Option Char → List Char → List Char
  | 0, _, _, t => t
  | _ + 1, _, _, [] => []
  | fuel + 1, lit, prev, c :: rest =>
    if isBoundary prev (some c) && ciHeadMatch lit (c :: rest) &&
        isBoundary ((c :: rest).take lit.length).getLast? ((c :: rest).drop lit.length).head? then
      '*' :: '*' :: ((c :: rest).take lit.length ++
        '*' :: '*' :: replaceScan fuel lit ((c :: rest).take lit.length).getLast?
          ((c :: rest).drop lit.length))
    else c :: replaceScan fuel lit (some c) rest

/-- Translation of `text.replace(new RegExp("\\b" + escaped + "\\b", "gi"), m => "**" + m + "**")`
for a non-empty word: the pattern built from the escaped word is
interpreted (it always denotes a literal character sequence, see
`regexLiteralChars`) and that literal is matched between word boundaries.
The words this is applied to are non-empty `\w+` tokens; the empty-word
guard only keeps the model total. -/
def jsReplaceWordCI (word : String) (text : String) : String :=
  if word = "" then text
  else
    match regexLiteralChars (escapeRegExp word).data with
    | some lit => ⟨replaceScan text.data.length lit none text.data⟩
    | none => text

/-- Translation of `highlightProfanity` from `src/unnamed/part_001` (lines 240-255): if
the highlight toggle is off return the message unchanged, otherwise wrap
every whole-word case-insensitive occurrence of each deduplicated matched
term in `**`, working on a rendering copy. -/
def highlightProfanity (cfg : PluginConfig) (wordList : List String) (message : String) :
    String :=
  if !cfg.highlightProfanity then message
  else
    let profaneWords := scan wordList message
    if profaneWords = [] then message
    else (jsDedup profaneWords).foldl (fun acc w => jsReplaceWordCI w acc) message

/-- Outcome fixed by the environment for one `fetch` call: a response
(with its `response.ok` flag) or a thrown network error. -/
inductive FetchOutcome where
  | resp (ok : Bool)
  | netErr
deriving DecidableEq

/-- JS `try { body } catch { handler }` where the handler swallows the
exception and completes normally with a value derived from it. -/
def jsCatchAll {ε α : Type} (body : Except ε α) (handler : ε → α) : Except ε α :=
  match body with
  | .ok a => .ok a
  | .error e => .ok (handler e)

/-- Observable behavior of one `postPrivateNoteToCrisp` call: whether the
`POST .../message` request was issued and whether it succeeded. -/
structure NoteReport where
  posted : Bool
  success : Bool
deriving DecidableEq

/-- The body of `postPrivateNoteToCrisp` (`src/server.js` lines 179-205)
before its `catch`: the POST is always issued; a network error is a
thrown exception carrying the calls made so far. -/
def postNoteBody (o : FetchOutcome) : Except NoteReport NoteReport :=
  match o with
  | .netErr => .error ⟨true, false⟩
  | .resp ok => .ok ⟨true, ok⟩

/-- Translation of `postPrivateNoteToCrisp`: the body wrapped in its catch-all, which
logs and returns normally. -/
def postPrivateNoteToCrisp (o : FetchOutcome) : Except NoteReport NoteReport :=
  jsCatchAll (postNoteBody o) id

/-- Observable behavior of one `sendSlackNotification` call: whether the
webhook POST was issued and whether it succeeded. -/
structure SlackReport where
  attempted : Bool
  success : Bool
deriving DecidableEq

/-- The body of `sendSlackNotification` (`src/unnamed/part_001` lines
378-468): skip entirely unless Slack is enabled and a webhook URL is
configured; otherwise issue the POST, a network error being thrown. -/
def sendSlackBody (cfg : PluginConfig) (o : FetchOutcome) : Except SlackReport SlackReport :=
  if cfg.slackEnabled && cfg.slackWebhookUrl ≠ "" then
    match o with
    | .netErr => .error ⟨true, false⟩
    | .resp ok => .ok ⟨true, ok⟩
  else .ok ⟨false, false⟩

/-- Translation of `sendSlackNotification`: the body wrapped in its catch-all. -/
def sendSlackNotification (cfg : PluginConfig) (o : FetchOutcome) :
    Except SlackReport SlackReport :=
  jsCatchAll (sendSlackBody cfg o) id

/-- One element of the conversation metadata `segments` array: a plain
string or an object with a `name` property. -/
inductive SegVal where
  | sstr (s : String)
  | sobj (name : String)
deriving DecidableEq

/-- A value of the intermediate `existingSegments` array: a string, JS
`undefined` (`seg.name` on a string element) or an object that survived
the string-first branch. -/
inductive EVal where
  | estr (s : String)
  | eundefVal
  | eobj (name : String)
deriving DecidableEq

/-- Outcome of the metadata GET in `tagCrispConversation`: a thrown
error, a non-ok response, or an ok response whose `data.segments` is the
given array (`none` when `segments` is not an array). -/
inductive MetaOutcome where
  | mthrow
  | mnotOk
  | mok (segments : Option (List SegVal))
deriving DecidableEq

/-- Outcome of one PATCH call: ok; a 400 whose body message contains
"should be string" (the signature that suppresses the object fallback);
any other non-ok response; or a thrown error. -/
inductive PatchOutcome where
  | pok
  | pfailFmt
  | pfailOther
  | pthrow
deriving DecidableEq

/-- Environment for one `tagCrispConversation` call: outcome of the
metadata GET, of the string-array PATCH and of the fallback object-array
PATCH. -/
structure TagEnv where
  meta : MetaOutcome
  patchStr : PatchOutcome
  patchObj : PatchOutcome
deriving DecidableEq

/-- Observable behavior of one `tagCrispConversation` call: whether the
metadata GET was issued, how many PATCH (mutating) calls were issued, and
the string segment array sent by the first PATCH, if any. -/
structure TagReport where
  metaGot : Bool
  patchCalls : Nat
  sentSegments : Option (List String)
deriving DecidableEq

/-- Translation of `seg.name` on a segment value: the name of an object, `undefined` on
a plain string. -/
def segNameE : SegVal → EVal
  | .sobj n => .estr n
  | .sstr _ => .eundefVal

/-- A segment value taken as-is: a string stays a string, an object stays
an object. -/
def segRawE : SegVal → EVal
  | .sstr x => .estr x
  | .sobj n => .eobj n

/-- The extraction of `existingSegments` from the metadata
(`src/server.js` lines 222-229): branch on the type of the first array
element; in the object-first branch `seg.name` on a string element is
`undefined`, in the string-first branch object elements survive as
objects. -/
def extractSegs : Option (List SegVal) → List EVal
  | none => []
  | some [] => []
  | some (first :: rest) =>
    match first with
    | .sobj _ => (first :: rest).map segNameE
    | .sstr _ => (first :: rest).map segRawE

/-- JS truthiness of an `existingSegments` element, as used by
`.filter(Boolean)`: the empty string and `undefined` are falsy, objects
are truthy. -/
def truthyE : EVal → Bool
  | .estr s => s ≠ ""
  | .eundefVal => false
  | .eobj _ => true

/-- Translation of `Array.from(new Set(...))` over the mixed array: strings dedupe by
value, objects dedupe by reference and hence never collide. -/
def dedupEGo (seen : List String) : List EVal → List EVal
  | [] => []
  | .estr s :: xs =>
    if s ∈ seen then dedupEGo seen xs else .estr s :: dedupEGo (s :: seen) xs
  | x :: xs => x :: dedupEGo seen xs

/-- Set-based dedupe of the mixed segments array. -/
def dedupE (l : List EVal) : List EVal :=
  dedupEGo [] l

/-- The expression `existingSegments.map(t => t.trim().toLowerCase())` throws a
`TypeError` as soon as it hits a non-string element; otherwise it is the
list of the underlying strings (here returned un-normalized, the
normalization being applied at the use sites). -/
def allStrs : List EVal → Option (List String)
  | [] => some []
  | .estr s :: xs => (allStrs xs).map (s :: ·)
  | _ :: _ => none

/-- Trim-and-lowercase normalization of a tag. -/
def normTag (s : String) : String :=
  lowerStr (jsTrim s)

/-- The body of `tagCrispConversation` (`src/server.js` lines 207-289)
before its `catch`: GET the metadata, extract/filter/dedupe the existing
segments, bail out on an empty normalized tag, skip the write when the
normalized tag is already present, otherwise PATCH the merged string
array, falling back to the object representation on a non-ok response
that is not the "should be string" 400. -/
def tagBody (tag : String) (env : TagEnv) : Except TagReport TagReport :=
  match env.meta with
  | .mthrow => .error ⟨true, 0, none⟩
  | .mnotOk => .ok ⟨true, 0, none⟩
  | .mok segs =>
    let existing0 := dedupE ((extractSegs segs).filter truthyE)
    let normalizedTag := normTag tag
    if normalizedTag = "" then .ok ⟨true, 0, none⟩
    else
      match allStrs existing0 with
      | none => .error ⟨true, 0, none⟩
      | some existing =>
        if (existing.map normTag).contains normalizedTag then .ok ⟨true, 0, none⟩
        else
          let merged := jsDedup (((existing ++ [normalizedTag]).map normTag).filter (· ≠ ""))
          match env.patchStr with
          | .pok => .ok ⟨true, 1, some merged⟩
          | .pthrow => .error ⟨true, 1, some merged⟩
          | .pfailFmt => .ok ⟨true, 1, some merged⟩
          | .pfailOther =>
            match env.patchObj with
            | .pthrow => .error ⟨true, 2, some merged⟩
            | _ => .ok ⟨true, 2, some merged⟩

/-- Translation of `tagCrispConversation`: the body wrapped in its catch-all. -/
def tagCrispConversation (tag : String) (env : TagEnv) : Except TagReport TagReport :=
  jsCatchAll (tagBody tag env) id

/-- Extract the settled value of one of the dispatch operations (their
catch-alls guarantee the `.ok` branch; the `.error` branch is the
worthless default the type forces). -/
def getOk {α : Type} : Except α α → α
  | .ok a => a
  | .error a => a

/-- Environment for the alert dispatch: the outcome of the note POST, of
the Slack POST, and of the tag operation's calls. -/
structure AlertEnv where
  note : FetchOutcome
  slack : FetchOutcome
  tag : TagEnv
deriving DecidableEq

/-- The observable outcome of a fired alert: the alert content fed to the
note and notification (deduplicated matched terms computed from the
original message, the highlighted rendering copy, the score label), the
settled result of each of the three dispatch operations, and the number
of promises `Promise.allSettled` waited on. -/
structure DispatchReport where
  matchedTerms : List String
  highlightedMessage : String
  scoreLabel : String
  noteResult : NoteReport
  slackResult : SlackReport
  tagResult : TagReport
  settledCount : Nat
deriving DecidableEq

/-- The alert branch of `processMessage` (`src/server.js` lines 405-442):
build the alert content from the original message, then issue the three
dispatch operations and settle all of them with `Promise.allSettled`. -/
def dispatchAlert (cfg : PluginConfig) (wordList : List String) (content : String)
    (score : JSNumber) (env : AlertEnv) : DispatchReport :=
  let uniqueProfaneWords := jsDedup (scan wordList content)
  let highlighted := highlightProfanity cfg wordList content
  let n := postPrivateNoteToCrisp env.note
  let s := sendSlackNotification cfg env.slack
  let t := tagCrispConversation cfg.tagToApply env.tag
  { matchedTerms := uniqueProfaneWords
    highlightedMessage := highlighted
    scoreLabel := getSentimentSummary score
    noteResult := getOk n
    slackResult := getOk s
    tagResult := getOk t
    settledCount := [n.isOk, s.isOk, t.isOk].length }

/-- The fields of the webhook `data` object that `processMessage`
inspects.  Empty identifier strings model the JS-falsy missing values. -/
structure MsgData where
  website_id : String
  session_id : String
  content : JSVal
deriving DecidableEq

/-- Translation of `processMessage` from `src/server.js` (lines 387-452): guard the
payload, strip punctuation, run the profanity check on both the raw and
the normalized content, compare the sentiment comparative score (a
black-box scorer output, passed as a parameter) with the configured
threshold, and on both conditions dispatch the alert.  The whole body is
wrapped in a catch-all, so no error escapes; `.ok none` means the
function returned without dispatching. -/
def processMessage (wordList : List String) (cfg : PluginConfig) (score : JSNumber)
    (env : AlertEnv) (data : MsgData) : Except Unit (Option DispatchReport) :=
  jsCatchAll
    (match data.content with
     | .vstr content =>
       if data.website_id = "" || data.session_id = "" then .ok none
       else
         let normalizedContent := normalizeContent content
         if profanityExistsM wordList content || profanityExistsM wordList normalizedContent then
           if jlt score cfg.negativeThreshold then
             .ok (some (dispatchAlert cfg wordList content score env))
           else .ok none
         else .ok none
     | _ => .ok none)
    (fun _ => none)

/-- Whether `processMessage` fired the alert (dispatched the side
effects). -/
def firesB (wordList : List String) (cfg : PluginConfig) (score : JSNumber)
    (env : AlertEnv) (data : MsgData) : Bool :=
  match processMessage wordList cfg score env data with
  | .ok (some _) => true
  | _ => false

/-- A benign dispatch environment: every network call succeeds and the
conversation has no existing segments. -/
def envAllOk : AlertEnv :=
  ⟨.resp true, .resp true, ⟨.mok (some []), .pok, .pok⟩⟩

/-- The default configuration with the highlight toggle switched on. -/
def cfgHighlight : PluginConfig :=
  { defaultPluginConfig with highlightProfanity := true }

/-- Whether the `tagToApply` branch of the config handler applies the
supplied value (a string that is non-empty after trimming). -/
def tagFieldApplies : Option JSVal → Bool
  | some (.vstr t) => jsTrim t ≠ ""
  | _ => false

/-- Whether the `negativeThreshold` branch applies the supplied value (a
finite number). -/
def thrFieldApplies : Option JSVal → Bool
  | some (.vnum (.fin _)) => true
  | _ => false

/-- Whether a boolean config branch (`slackEnabled`,
`highlightProfanity`) applies the supplied value. -/
def boolFieldApplies : Option JSVal → Bool
  | some (.vbool _) => true
  | _ => false

/-- Whether the `slackWebhookUrl` branch applies the supplied value (any
string). -/
def strFieldApplies : Option JSVal → Bool
  | some (.vstr _) => true
  | _ => false

section Lemmas

theorem jsCatchAll_isOk {ε α : Type} (body : Except ε α) (h : ε → α) :
    (jsCatchAll body h).isOk = true := by
  cases body <;> rfl

theorem jlt_irrefl (x : JSNumber) : jlt x x = false := by
  cases x <;> simp [jlt]

theorem upperLowerTable_facts :
    ∀ p ∈ upperLowerTable, isWS p.1 = false ∧ isWS p.2 = false ∧
      upperLowerTable.find? (fun q => q.1 = p.2) = none := by
  decide

theorem jsToLower_isWS (c : Char) : isWS (jsToLower c) = isWS c := by
  unfold jsToLower
  cases h : upperLowerTable.find? (fun p => p.1 = c) with
  | none => rfl
  | some p =>
    have hm : p ∈ upperLowerTable := List.mem_of_find?_eq_some h
    have hp : p.1 = c := by
      have := List.find?_some h
      simpa using this
    have := upperLowerTable_facts p hm
    rw [← hp]
    rw [this.1, this.2.1]

theorem jsToLower_idem (c : Char) : jsToLower (jsToLower c) = jsToLower c := by
  unfold jsToLower
  cases h : upperLowerTable.find? (fun p => p.1 = c) with
  | none => rw [h]
  | some p =>
    have hm : p ∈ upperLowerTable := List.mem_of_find?_eq_some h
    rw [(upperLowerTable_facts p hm).2.2]

end Lemmas

section ClaimC5

/-- C5: for every numeric score, `getSentimentSummary` returns exactly the
fixed five-bucket mapping of the spec: score ≤ -1 is "Very Negative",
-1 < score < 0 is "Negative", score = 0 is "Neutral", 0 < score < 1 is
"Positive", score ≥ 1 is "Very Positive" (infinite scores land in the
outer buckets accordingly). -/
theorem c5_score_label_buckets :
    (∀ q : ℚ, getSentimentSummary (.fin q) = sentimentLabelSpec q) ∧
    getSentimentSummary .neginf = "Very Negative" ∧
    getSentimentSummary .inf = "Very Positive" := by
  refine ⟨fun q => ?_, rfl, rfl⟩
  simp only [getSentimentSummary, sentimentLabelSpec, jle, jlt, jeq, decide_eq_true_eq]
  by_cases h1 : q ≤ -1
  · rw [if_pos h1, if_pos h1]
  · rw [if_neg h1, if_neg h1]
    by_cases h2 : q < 0
    · rw [if_pos h2, if_pos (show -1 < q ∧ q < 0 from ⟨not_le.mp h1, h2⟩)]
    · rw [if_neg h2, if_neg (show ¬(-1 < q ∧ q < 0) from fun hc => h2 hc.2)]
      by_cases h3 : q = 0
      · rw [if_pos h3, if_pos h3]
      · rw [if_neg h3, if_neg h3]
        by_cases h4 : q < 1
        · have h0 : 0 < q := lt_of_le_of_ne (not_lt.mp h2) (Ne.symm h3)
          rw [if_pos h4, if_pos (show 0 < q ∧ q < 1 from ⟨h0, h4⟩)]
        · rw [if_neg h4, if_neg (show ¬(0 < q ∧ q < 1) from fun hc => h4 hc.2)]

end ClaimC5

section ClaimC9

/-- C9: `getSentimentSummary` is total and always returns one of the five
labels; a `NaN` score fails every comparison, falls through every branch
and yields "Very Positive". -/
theorem c9_score_label_total :
    getSentimentSummary .nan = "Very Positive" ∧
    ∀ s : JSNumber, getSentimentSummary s ∈
      ["Very Negative", "Negative", "Neutral", "Positive", "Very Positive"] := by
  refine ⟨rfl, fun s => ?_⟩
  cases s <;> simp only [getSentimentSummary] <;> split_ifs <;> simp

end ClaimC9

section ClaimC8

/-- C8: the lexical scanner is total (a Lean function) and returns the
empty set whenever the word list is missing or empty, or the message is
not a string, or the message is the empty string. -/
theorem c8_scanner_total :
    (∀ m : JSVal, getAllProfanitiesInMessage none m = []) ∧
    (∀ m : JSVal, getAllProfanitiesInMessage (some []) m = []) ∧
    (∀ l : Option (List JSVal), getAllProfanitiesInMessage l (.vstr "") = []) ∧
    (∀ (l : Option (List JSVal)) (n : JSNumber), getAllProfanitiesInMessage l (.vnum n) = []) ∧
    (∀ (l : Option (List JSVal)) (b : Bool), getAllProfanitiesInMessage l (.vbool b) = []) ∧
    (∀ l : Option (List JSVal), getAllProfanitiesInMessage l .vnull = []) ∧
    (∀ l : Option (List JSVal), getAllProfanitiesInMessage l .vother = []) := by
  refine ⟨fun m => ?_, fun m => ?_, fun l => ?_, fun l n => ?_, fun l b => ?_,
    fun l => ?_, fun l => ?_⟩ <;>
    first
      | rfl
      | (cases m <;> simp [getAllProfanitiesInMessage])

end ClaimC8

section DedupLemmas

theorem mem_jsDedupGo : ∀ (l seen : List String) (x : String),
    x ∈ jsDedupGo seen l ↔ x ∈ l ∧ x ∉ seen
  | [], seen, x => by simp [jsDedupGo]
  | a :: as, seen, x => by
    by_cases h : a ∈ seen
    · rw [jsDedupGo, if_pos h, mem_jsDedupGo as seen x]
      constructor
      · exact fun hx => ⟨List.mem_cons_of_mem _ hx.1, hx.2⟩
      · rintro ⟨h1, h2⟩
        rcases List.mem_cons.mp h1 with rfl | h1
        · exact absurd h h2
        · exact ⟨h1, h2⟩
    · rw [jsDedupGo, if_neg h]
      constructor
      · intro hx
        rcases List.mem_cons.mp hx with rfl | hx
        · exact ⟨List.mem_cons_self _ _, h⟩
        · have hr := (mem_jsDedupGo as (a :: seen) x).mp hx
          exact ⟨List.mem_cons_of_mem _ hr.1, fun hs => hr.2 (List.mem_cons_of_mem _ hs)⟩
      · rintro ⟨h1, h2⟩
        rcases List.mem_cons.mp h1 with rfl | h1
        · exact List.mem_cons_self _ _
        · by_cases hxa : x = a
          · subst hxa; exact List.mem_cons_self _ _
          · exact List.mem_cons_of_mem _ ((mem_jsDedupGo as (a :: seen) x).mpr
              ⟨h1, fun hs => (List.mem_cons.mp hs).elim hxa h2⟩)

theorem nodup_jsDedupGo : ∀ (l seen : List String), (jsDedupGo seen l).Nodup
  | [], _ => by simp [jsDedupGo]
  | a :: as, seen => by
    by_cases h : a ∈ seen
    · rw [jsDedupGo, if_pos h]; exact nodup_jsDedupGo as seen
    · rw [jsDedupGo, if_neg h]
      refine List.nodup_cons.mpr ⟨fun hmem => ?_, nodup_jsDedupGo as (a :: seen)⟩
      exact ((mem_jsDedupGo as (a :: seen) a).mp hmem).2 (List.mem_cons_self _ _)

theorem jsDedupGo_eq_self : ∀ (l seen : List String), l.Nodup → (∀ x ∈ l, x ∉ seen) →
    jsDedupGo seen l = l
  | [], _, _, _ => rfl
  | a :: as, seen, hn, hs => by
    rw [jsDedupGo, if_neg (hs a (List.mem_cons_self _ _))]
    congr 1
    refine jsDedupGo_eq_self as (a :: seen) (List.nodup_cons.mp hn).2 ?_
    intro x hx hmem
    rcases List.mem_cons.mp hmem with rfl | hmem
    · exact (List.nodup_cons.mp hn).1 hx
    · exact hs x (List.mem_cons_of_mem _ hx) hmem

theorem mem_jsDedup (l : List String) (x : String) : x ∈ jsDedup l ↔ x ∈ l := by
  simp [jsDedup, mem_jsDedupGo]

theorem nodup_jsDedup (l : List String) : (jsDedup l).Nodup :=
  nodup_jsDedupGo l []

theorem jsDedup_of_nodup (l : List String) (h : l.Nodup) : jsDedup l = l :=
  jsDedupGo_eq_self l [] h (by simp)

theorem jsDedup_idem (l : List String) : jsDedup (jsDedup l) = jsDedup l :=
  jsDedup_of_nodup _ (nodup_jsDedup l)

end DedupLemmas

section ClaimC7

/-- C7 counterexample: with word list `["idiot"]`, the message
`"Idiot idiot"` yields the two matched occurrences differing only in
letter case, and the `Set`-based dedupe reported in the alert keeps both
of them, so membership is not case-insensitive as the claim states. -/
theorem c7_counterexample :
    jsDedup (scan ["idiot"] "Idiot idiot") = ["Idiot", "idiot"] ∧
    lowerStr "Idiot" = lowerStr "idiot" ∧
    (dispatchAlert defaultPluginConfig ["idiot"] "Idiot idiot" (.fin (-1))
      envAllOk).matchedTerms = ["Idiot", "idiot"] := by
  refine ⟨by decide, by decide, ?_⟩
  show jsDedup (scan ["idiot"] "Idiot idiot") = _
  decide

/-- C7 amended: the set of matched terms reported in the alert content is
deduplicated by exact (case-sensitive) string equality, keeping the first
occurrence of each distinct surface form: no exact duplicate remains and
no matched surface form is lost; occurrences of the same word differing
only in letter case remain separate entries. -/
theorem c7_dedup_exact :
    ∀ (wordList : List String) (msg : String),
      (jsDedup (scan wordList msg)).Nodup ∧
      (∀ t, t ∈ jsDedup (scan wordList msg) ↔ t ∈ scan wordList msg) ∧
      ∀ (cfg : PluginConfig) (score : JSNumber) (env : AlertEnv),
        (dispatchAlert cfg wordList msg score env).matchedTerms =
          jsDedup (scan wordList msg) :=
  fun _ _ =>
    ⟨nodup_jsDedup _, fun t => mem_jsDedup _ t, fun _ _ _ => rfl⟩

end ClaimC7

section FireLemmas

theorem firesB_char (wl : List String) (cfg : PluginConfig) (score : JSNumber)
    (env : AlertEnv) (w s c : String) (hw : w ≠ "") (hs : s ≠ "") :
    firesB wl cfg score env ⟨w, s, .vstr c⟩ =
      ((profanityExistsM wl c || profanityExistsM wl (normalizeContent c)) &&
        jlt score cfg.negativeThreshold) := by
  unfold firesB processMessage jsCatchAll
  cases h1 : (profanityExistsM wl c || profanityExistsM wl (normalizeContent c)) <;>
    cases h2 : jlt score cfg.negativeThreshold <;>
    simp [hw, hs, h1, h2]

end FireLemmas

section ClaimC1

/-- C1 counterexample: with word list `["idiot"]`, the default config
(threshold 0) and score -1, the message `"i.d.i.o.t"` has an empty
matched-term set yet the alert fires, because the profanity check also
runs on the punctuation-stripped copy `"idiot"` of the content; the
claim's "a message with no matched terms never fires" is false. -/
theorem c1_counterexample :
    firesB ["idiot"] defaultPluginConfig (.fin (-1)) envAllOk
      ⟨"w", "s", .vstr "i.d.i.o.t"⟩ = true ∧
    scan ["idiot"] "i.d.i.o.t" = [] ∧
    jsDedup (scan ["idiot"] "i.d.i.o.t") = [] :=
  ⟨by decide, by decide, by decide⟩

/-- C1 amended: for a valid payload the alert fires iff the profanity
detector matches the raw content OR its punctuation-stripped copy, AND
the sentiment score is strictly below the tenant threshold.  In
particular a score not strictly below the threshold (so also a score
exactly equal to it) never fires; but a message with an empty
matched-term set can still fire when only the stripped copy matches. -/
theorem c1_fire_characterization (wl : List String) (cfg : PluginConfig)
    (score : JSNumber) (env : AlertEnv) (w s c : String)
    (hw : w ≠ "") (hs : s ≠ "") :
    (firesB wl cfg score env ⟨w, s, .vstr c⟩ =
      ((profanityExistsM wl c || profanityExistsM wl (normalizeContent c)) &&
        jlt score cfg.negativeThreshold)) ∧
    (jlt score cfg.negativeThreshold = false →
      firesB wl cfg score env ⟨w, s, .vstr c⟩ = false) ∧
    (score = cfg.negativeThreshold →
      firesB wl cfg score env ⟨w, s, .vstr c⟩ = false) := by
  have h := firesB_char wl cfg score env w s c hw hs
  refine ⟨h, fun h2 => ?_, fun he => ?_⟩
  · rw [h, h2, Bool.and_false]
  · rw [h, he, jlt_irrefl, Bool.and_false]

/-- Concrete instance of the C1 characterization: profane but positive
message never fires. -/
theorem c1_fire_characterization_witness :
    firesB ["idiot"] defaultPluginConfig (.fin 1) envAllOk
        ⟨"w", "s", .vstr "you idiot"⟩ =
      ((profanityExistsM ["idiot"] "you idiot" ||
        profanityExistsM ["idiot"] (normalizeContent "you idiot")) &&
        jlt (.fin 1) defaultPluginConfig.negativeThreshold) :=
  (c1_fire_characterization ["idiot"] defaultPluginConfig (.fin 1) envAllOk
    "w" "s" "you idiot" (by decide) (by decide)).1

end ClaimC1

section ConfigLemmas

theorem applyTagField_preserves (st : UpdSt) (v : Option JSVal) :
    (applyTagField st v).cfg.negativeThreshold = st.cfg.negativeThreshold ∧
    (applyTagField st v).cfg.slackEnabled = st.cfg.slackEnabled ∧
    (applyTagField st v).cfg.slackWebhookUrl = st.cfg.slackWebhookUrl ∧
    (applyTagField st v).cfg.highlightProfanity = st.cfg.highlightProfanity ∧
    (tagFieldApplies v = false → (applyTagField st v).cfg.tagToApply = st.cfg.tagToApply) := by
  rcases v with _ | (t | n | b | _ | _)
  · simp [applyTagField, tagFieldApplies]
  · by_cases h : jsTrim t = "" <;> simp [applyTagField, tagFieldApplies, h]
  · simp [applyTagField, tagFieldApplies]
  · simp [applyTagField, tagFieldApplies]
  · simp [applyTagField, tagFieldApplies]
  · simp [applyTagField, tagFieldApplies]

theorem applyThresholdField_preserves (st : UpdSt) (v : Option JSVal) :
    (applyThresholdField st v).cfg.tagToApply = st.cfg.tagToApply ∧
    (applyThresholdField st v).cfg.slackEnabled = st.cfg.slackEnabled ∧
    (applyThresholdField st v).cfg.slackWebhookUrl = st.cfg.slackWebhookUrl ∧
    (applyThresholdField st v).cfg.highlightProfanity = st.cfg.highlightProfanity ∧
    (thrFieldApplies v = false →
      (applyThresholdField st v).cfg.negativeThreshold = st.cfg.negativeThreshold) := by
  rcases v with _ | (t | n | b | _ | _)
  · simp [applyThresholdField, thrFieldApplies]
  · simp [applyThresholdField, thrFieldApplies]
  · cases n <;> simp [applyThresholdField, thrFieldApplies]
  · simp [applyThresholdField, thrFieldApplies]
  · simp [applyThresholdField, thrFieldApplies]
  · simp [applyThresholdField, thrFieldApplies]

theorem applySlackEnabledField_preserves (st : UpdSt) (v : Option JSVal) :
    (applySlackEnabledField st v).cfg.tagToApply = st.cfg.tagToApply ∧
    (applySlackEnabledField st v).cfg.negativeThreshold = st.cfg.negativeThreshold ∧
    (applySlackEnabledField st v).cfg.slackWebhookUrl = st.cfg.slackWebhookUrl ∧
    (applySlackEnabledField st v).cfg.highlightProfanity = st.cfg.highlightProfanity ∧
    (boolFieldApplies v = false →
      (applySlackEnabledField st v).cfg.slackEnabled = st.cfg.slackEnabled) := by
  rcases v with _ | (t | n | b | _ | _) <;> simp [applySlackEnabledField, boolFieldApplies]

theorem applySlackUrlField_preserves (st : UpdSt) (v : Option JSVal) :
    (applySlackUrlField st v).cfg.tagToApply = st.cfg.tagToApply ∧
    (applySlackUrlField st v).cfg.negativeThreshold = st.cfg.negativeThreshold ∧
    (applySlackUrlField st v).cfg.slackEnabled = st.cfg.slackEnabled ∧
    (applySlackUrlField st v).cfg.highlightProfanity = st.cfg.highlightProfanity ∧
    (strFieldApplies v = false →
      (applySlackUrlField st v).cfg.slackWebhookUrl = st.cfg.slackWebhookUrl) := by
  rcases v with _ | (t | n | b | _ | _) <;> simp [applySlackUrlField, strFieldApplies]

theorem applyHighlightField_preserves (st : UpdSt) (v : Option JSVal) :
    (applyHighlightField st v).cfg.tagToApply = st.cfg.tagToApply ∧
    (applyHighlightField st v).cfg.negativeThreshold = st.cfg.negativeThreshold ∧
    (applyHighlightField st v).cfg.slackEnabled = st.cfg.slackEnabled ∧
    (applyHighlightField st v).cfg.slackWebhookUrl = st.cfg.slackWebhookUrl ∧
    (boolFieldApplies v = false →
      (applyHighlightField st v).cfg.highlightProfanity = st.cfg.highlightProfanity) := by
  rcases v with _ | (t | n | b | _ | _) <;> simp [applyHighlightField, boolFieldApplies]

theorem configFieldSteps_preserves (cfg : PluginConfig) (req : ConfigRequest) :
    (tagFieldApplies req.tagToApply = false →
      (configFieldSteps cfg req).cfg.tagToApply = cfg.tagToApply) ∧
    (thrFieldApplies req.negativeThreshold = false →
      (configFieldSteps cfg req).cfg.negativeThreshold = cfg.negativeThreshold) ∧
    (boolFieldApplies req.slackEnabled = false →
      (configFieldSteps cfg req).cfg.slackEnabled = cfg.slackEnabled) ∧
    (strFieldApplies req.slackWebhookUrl = false →
      (configFieldSteps cfg req).cfg.slackWebhookUrl = cfg.slackWebhookUrl) ∧
    (boolFieldApplies req.highlightProfanity = false →
      (configFieldSteps cfg req).cfg.highlightProfanity = cfg.highlightProfanity) := by
  set s1 := applyTagField ⟨cfg, false, []⟩ req.tagToApply with hs1
  set s2 := applyThresholdField s1 req.negativeThreshold with hs2
  set s3 := applySlackEnabledField s2 req.slackEnabled with hs3
  set s4 := applySlackUrlField s3 req.slackWebhookUrl with hs4
  have hsteps : configFieldSteps cfg req = applyHighlightField s4 req.highlightProfanity := rfl
  rw [hsteps]
  refine ⟨fun hap => ?_, fun hap => ?_, fun hap => ?_, fun hap => ?_, fun hap => ?_⟩
  · calc (applyHighlightField s4 req.highlightProfanity).cfg.tagToApply
        = s4.cfg.tagToApply := (applyHighlightField_preserves s4 _).1
      _ = s3.cfg.tagToApply := (applySlackUrlField_preserves s3 _).1
      _ = s2.cfg.tagToApply := (applySlackEnabledField_preserves s2 _).1
      _ = s1.cfg.tagToApply := (applyThresholdField_preserves s1 _).1
      _ = cfg.tagToApply := (applyTagField_preserves _ _).2.2.2.2 hap
  · calc (applyHighlightField s4 req.highlightProfanity).cfg.negativeThreshold
        = s4.cfg.negativeThreshold := (applyHighlightField_preserves s4 _).2.1
      _ = s3.cfg.negativeThreshold := (applySlackUrlField_preserves s3 _).2.1
      _ = s2.cfg.negativeThreshold := (applySlackEnabledField_preserves s2 _).2.1
      _ = s1.cfg.negativeThreshold := (applyThresholdField_preserves s1 _).2.2.2.2 hap
      _ = cfg.negativeThreshold := (applyTagField_preserves _ _).1
  · calc (applyHighlightField s4 req.highlightProfanity).cfg.slackEnabled
        = s4.cfg.slackEnabled := (applyHighlightField_preserves s4 _).2.2.1
      _ = s3.cfg.slackEnabled := (applySlackUrlField_preserves s3 _).2.2.1
      _ = s2.cfg.slackEnabled := (applySlackEnabledField_preserves s2 _).2.2.2.2 hap
      _ = s1.cfg.slackEnabled := (applyThresholdField_preserves s1 _).2.1
      _ = cfg.slackEnabled := (applyTagField_preserves _ _).2.1
  · calc (applyHighlightField s4 req.highlightProfanity).cfg.slackWebhookUrl
        = s4.cfg.slackWebhookUrl := (applyHighlightField_preserves s4 _).2.2.2.1
      _ = s3.cfg.slackWebhookUrl := (applySlackUrlField_preserves s3 _).2.2.2.2 hap
      _ = s2.cfg.slackWebhookUrl := (applySlackEnabledField_preserves s2 _).2.2.1
      _ = s1.cfg.slackWebhookUrl := (applyThresholdField_preserves s1 _).2.2.1
      _ = cfg.slackWebhookUrl := (applyTagField_preserves _ _).2.2.1
  · calc (applyHighlightField s4 req.highlightProfanity).cfg.highlightProfanity
        = s4.cfg.highlightProfanity := (applyHighlightField_preserves s4 _).2.2.2.2 hap
      _ = s3.cfg.highlightProfanity := (applySlackUrlField_preserves s3 _).2.2.2.1
      _ = s2.cfg.highlightProfanity := (applySlackEnabledField_preserves s2 _).2.2.2.1
      _ = s1.cfg.highlightProfanity := (applyThresholdField_preserves s1 _).2.2.2.1
      _ = cfg.highlightProfanity := (applyTagField_preserves _ _).2.2.2.1

theorem postPluginConfig_memConfig (cfg : PluginConfig) (req : ConfigRequest) :
    (postPluginConfig cfg req).memConfig = (configFieldSteps cfg req).cfg := by
  unfold postPluginConfig
  split_ifs <;> rfl

end ConfigLemmas

section ClaimC2

/-- C2 counterexample: a request supplying a valid `tagToApply` together
with a `negativeThreshold` of the wrong type is rejected with status 400,
the field-level error list and no store write — but the already-validated
`tagToApply` was applied to the live configuration before the failure was
discovered, so a field of the stored configuration did change. -/
theorem c2_counterexample :
    (postPluginConfig defaultPluginConfig
      ⟨some (.vstr "urgent"), some (.vbool true), none, none, none⟩).status = 400 ∧
    (postPluginConfig defaultPluginConfig
      ⟨some (.vstr "urgent"), some (.vbool true), none, none, none⟩).errors =
      ["negativeThreshold must be a number."] ∧
    (postPluginConfig defaultPluginConfig
      ⟨some (.vstr "urgent"), some (.vbool true), none, none, none⟩).saved = false ∧
    (postPluginConfig defaultPluginConfig
      ⟨some (.vstr "urgent"), some (.vbool true), none, none, none⟩).memConfig.tagToApply =
      "urgent" ∧
    defaultPluginConfig.tagToApply = "profanity-alert" := by
  refine ⟨by decide, by decide, by decide, by decide, by decide⟩

/-- C2 amended: when any supplied field fails its type check the update
is rejected with status 400 and the structured field-level error list,
and no write to the configuration store occurs; every field whose input
was absent or failed validation keeps its prior value, but fields that
individually passed validation before the failure have already been
applied to the live in-memory configuration. -/
theorem c2_reject_no_save (cfg : PluginConfig) (req : ConfigRequest)
    (herr : (postPluginConfig cfg req).errors ≠ []) :
    (postPluginConfig cfg req).status = 400 ∧
    (postPluginConfig cfg req).saved = false ∧
    (tagFieldApplies req.tagToApply = false →
      (postPluginConfig cfg req).memConfig.tagToApply = cfg.tagToApply) ∧
    (thrFieldApplies req.negativeThreshold = false →
      (postPluginConfig cfg req).memConfig.negativeThreshold = cfg.negativeThreshold) ∧
    (boolFieldApplies req.slackEnabled = false →
      (postPluginConfig cfg req).memConfig.slackEnabled = cfg.slackEnabled) ∧
    (strFieldApplies req.slackWebhookUrl = false →
      (postPluginConfig cfg req).memConfig.slackWebhookUrl = cfg.slackWebhookUrl) ∧
    (boolFieldApplies req.highlightProfanity = false →
      (postPluginConfig cfg req).memConfig.highlightProfanity = cfg.highlightProfanity) := by
  have hmem := postPluginConfig_memConfig cfg req
  have hpres := configFieldSteps_preserves cfg req
  by_cases h : (configFieldSteps cfg req).errors = []
  · exfalso
    apply herr
    unfold postPluginConfig
    simp only [h]
    split_ifs <;> simp
  · have hres : postPluginConfig cfg req =
        ⟨(configFieldSteps cfg req).cfg, false, 400, (configFieldSteps cfg req).errors⟩ := by
      unfold postPluginConfig
      rw [if_pos h]
    refine ⟨by rw [hres], by rw [hres], fun hap => ?_, fun hap => ?_, fun hap => ?_,
      fun hap => ?_, fun hap => ?_⟩
    · rw [hmem]; exact hpres.1 hap
    · rw [hmem]; exact hpres.2.1 hap
    · rw [hmem]; exact hpres.2.2.1 hap
    · rw [hmem]; exact hpres.2.2.2.1 hap
    · rw [hmem]; exact hpres.2.2.2.2 hap

/-- Concrete instance of the C2 amended theorem: an invalid-only request
is rejected without a save and leaves the threshold untouched. -/
theorem c2_reject_no_save_witness :
    (postPluginConfig defaultPluginConfig
      ⟨none, some (.vbool true), none, none, none⟩).status = 400 ∧
    (postPluginConfig defaultPluginConfig
      ⟨none, some (.vbool true), none, none, none⟩).saved = false ∧
    (postPluginConfig defaultPluginConfig
      ⟨none, some (.vbool true), none, none, none⟩).memConfig.negativeThreshold =
      defaultPluginConfig.negativeThreshold := by
  have h := c2_reject_no_save defaultPluginConfig
    ⟨none, some (.vbool true), none, none, none⟩ (by decide)
  exact ⟨h.1, h.2.1, h.2.2.2.1 (by decide)⟩

end ClaimC2

section ClaimC10

/-- C10: the configuration update accepts any finite number for
`negativeThreshold` — including positive values and values below -5 —
because the validation checks only type and finiteness; the value is
stored unchanged and the decision engine subsequently compares the score
against exactly that value. -/
theorem c10_threshold_unbounded (cfg : PluginConfig) (q : ℚ) :
    (postPluginConfig cfg ⟨none, some (.vnum (.fin q)), none, none, none⟩).status = 200 ∧
    (postPluginConfig cfg ⟨none, some (.vnum (.fin q)), none, none, none⟩).saved = true ∧
    (postPluginConfig cfg
      ⟨none, some (.vnum (.fin q)), none, none, none⟩).memConfig.negativeThreshold = .fin q ∧
    (∀ (wl : List String) (score : JSNumber) (env : AlertEnv) (w s c : String),
      w ≠ "" → s ≠ "" →
      firesB wl
          (postPluginConfig cfg ⟨none, some (.vnum (.fin q)), none, none, none⟩).memConfig
          score env ⟨w, s, .vstr c⟩ =
        ((profanityExistsM wl c || profanityExistsM wl (normalizeContent c)) &&
          jlt score (.fin q))) := by
  have hsteps : configFieldSteps cfg ⟨none, some (.vnum (.fin q)), none, none, none⟩ =
      ⟨{ cfg with negativeThreshold := .fin q }, true, []⟩ := rfl
  have hres : postPluginConfig cfg ⟨none, some (.vnum (.fin q)), none, none, none⟩ =
      ⟨{ cfg with negativeThreshold := .fin q }, true, 200, []⟩ := by
    unfold postPluginConfig
    rw [hsteps]
    simp
  refine ⟨by rw [hres], by rw [hres], by rw [hres], fun wl score env w s c hw hs => ?_⟩
  rw [hres, firesB_char wl _ score env w s c hw hs]

/-- Concrete instance of C10: the out-of-range threshold 7 is accepted,
stored, and used by the decision. -/
theorem c10_threshold_unbounded_witness :
    (postPluginConfig defaultPluginConfig
      ⟨none, some (.vnum (.fin 7)), none, none, none⟩).status = 200 ∧
    (postPluginConfig defaultPluginConfig
      ⟨none, some (.vnum (.fin 7)), none, none, none⟩).memConfig.negativeThreshold = .fin 7 ∧
    firesB ["idiot"]
        (postPluginConfig defaultPluginConfig
          ⟨none, some (.vnum (.fin 7)), none, none, none⟩).memConfig
        (.fin 5) envAllOk ⟨"w", "s", .vstr "you idiot"⟩ =
      ((profanityExistsM ["idiot"] "you idiot" ||
        profanityExistsM ["idiot"] (normalizeContent "you idiot")) &&
        jlt (.fin 5) (.fin 7)) := by
  have h := c10_threshold_unbounded defaultPluginConfig 7
  exact ⟨h.1, h.2.2.1, h.2.2.2 ["idiot"] (.fin 5) envAllOk "w" "s" "you idiot"
    (by decide) (by decide)⟩

end ClaimC10

section DispatchLemmas

theorem notePosted (o : FetchOutcome) : (getOk (postPrivateNoteToCrisp o)).posted = true := by
  cases o <;> rfl

theorem tagMetaGot (tag : String) (env : TagEnv) :
    (getOk (tagCrispConversation tag env)).metaGot = true := by
  rcases env with ⟨meta, p1, p2⟩
  cases meta with
  | mthrow => rfl
  | mnotOk => rfl
  | mok segs =>
    unfold tagCrispConversation tagBody jsCatchAll getOk
    dsimp only
    split_ifs with h1
    · rfl
    · cases h : allStrs (dedupE ((extractSegs segs).filter truthyE)) with
      | none => rfl
      | some ex =>
        dsimp only
        split_ifs with h2
        · rfl
        · cases p1 <;> first | rfl | (cases p2 <;> rfl)

theorem processMessage_isOk (wl : List String) (cfg : PluginConfig) (score : JSNumber)
    (env : AlertEnv) (data : MsgData) :
    (processMessage wl cfg score env data).isOk = true := by
  unfold processMessage
  exact jsCatchAll_isOk _ _

end DispatchLemmas

section ClaimC3

/-- C3: each of the three dispatch operations swallows its own failures
and settles normally for every network outcome; the coordinator settles
all three promises; the note POST and the metadata GET are always issued;
each operation's settled result depends only on its own slice of the
environment, so one operation's failure cannot prevent the other two from
being attempted and completing; and no dispatch failure escapes
`processMessage` as an exception. -/
theorem c3_dispatch_isolation (cfg : PluginConfig) (wordList : List String)
    (content : String) (score : JSNumber) (env : AlertEnv) :
    (postPrivateNoteToCrisp env.note).isOk = true ∧
    (sendSlackNotification cfg env.slack).isOk = true ∧
    (tagCrispConversation cfg.tagToApply env.tag).isOk = true ∧
    (dispatchAlert cfg wordList content score env).settledCount = 3 ∧
    (dispatchAlert cfg wordList content score env).noteResult.posted = true ∧
    (dispatchAlert cfg wordList content score env).tagResult.metaGot = true ∧
    (∀ env2 : AlertEnv, env2.note = env.note →
      (dispatchAlert cfg wordList content score env2).noteResult =
        (dispatchAlert cfg wordList content score env).noteResult) ∧
    (∀ env2 : AlertEnv, env2.tag = env.tag →
      (dispatchAlert cfg wordList content score env2).tagResult =
        (dispatchAlert cfg wordList content score env).tagResult) ∧
    (∀ env2 : AlertEnv, env2.slack = env.slack →
      (dispatchAlert cfg wordList content score env2).slackResult =
        (dispatchAlert cfg wordList content score env).slackResult) ∧
    (∀ (wl2 : List String) (score2 : JSNumber) (data : MsgData),
      (processMessage wl2 cfg score2 env data).isOk = true) := by
  refine ⟨jsCatchAll_isOk _ _, jsCatchAll_isOk _ _, jsCatchAll_isOk _ _, rfl,
    notePosted env.note, tagMetaGot cfg.tagToApply env.tag,
    fun env2 h => ?_, fun env2 h => ?_, fun env2 h => ?_,
    fun wl2 score2 data => processMessage_isOk wl2 cfg score2 env data⟩
  · show getOk (postPrivateNoteToCrisp env2.note) = getOk (postPrivateNoteToCrisp env.note)
    rw [h]
  · show getOk (tagCrispConversation cfg.tagToApply env2.tag) =
      getOk (tagCrispConversation cfg.tagToApply env.tag)
    rw [h]
  · show getOk (sendSlackNotification cfg env2.slack) =
      getOk (sendSlackNotification cfg env.slack)
    rw [h]

/-- Concrete instance of C3: with the notification endpoint failing
(network error), the note and tag results are identical to the
all-success run and the pipeline still returns normally. -/
theorem c3_dispatch_isolation_witness :
    (dispatchAlert defaultPluginConfig ["idiot"] "you idiot" (.fin (-1))
        ⟨.resp true, .netErr, ⟨.mok (some []), .pok, .pok⟩⟩).noteResult =
      (dispatchAlert defaultPluginConfig ["idiot"] "you idiot" (.fin (-1))
        envAllOk).noteResult ∧
    (dispatchAlert defaultPluginConfig ["idiot"] "you idiot" (.fin (-1))
        ⟨.resp true, .netErr, ⟨.mok (some []), .pok, .pok⟩⟩).tagResult =
      (dispatchAlert defaultPluginConfig ["idiot"] "you idiot" (.fin (-1))
        envAllOk).tagResult ∧
    (processMessage ["idiot"] defaultPluginConfig (.fin (-1))
      ⟨.resp true, .netErr, ⟨.mok (some []), .pok, .pok⟩⟩
      ⟨"w", "s", .vstr "you idiot"⟩).isOk = true := by
  have h := c3_dispatch_isolation defaultPluginConfig ["idiot"] "you idiot" (.fin (-1))
    ⟨.resp true, .netErr, ⟨.mok (some []), .pok, .pok⟩⟩
  exact ⟨(h.2.2.2.2.2.2.1 envAllOk rfl).symm,
    (h.2.2.2.2.2.2.2.1 envAllOk rfl).symm,
    h.2.2.2.2.2.2.2.2.2 ["idiot"] (.fin (-1)) ⟨"w", "s", .vstr "you idiot"⟩⟩

end ClaimC3

section NormalizationLemmas

theorem lowerStr_idem (s : String) : lowerStr (lowerStr s) = lowerStr s := by
  unfold lowerStr
  simp only [List.map_map]
  have h : jsToLower ∘ jsToLower = jsToLower := funext jsToLower_idem
  rw [h]

theorem trimChars_map_lower (l : List Char) :
    trimChars (l.map jsToLower) = (trimChars l).map jsToLower := by
  have hws : (isWS ∘ jsToLower) = isWS := funext jsToLower_isWS
  unfold trimChars List.rdropWhile
  rw [List.dropWhile_map, hws, ← List.map_reverse, List.dropWhile_map, hws, List.map_reverse]

theorem jsTrim_lowerStr (s : String) : jsTrim (lowerStr s) = lowerStr (jsTrim s) := by
  unfold jsTrim lowerStr
  congr 1
  exact trimChars_map_lower s.data

theorem trimChars_idem (l : List Char) : trimChars (trimChars l) = trimChars l := by
  unfold trimChars
  obtain ⟨t, ht⟩ := List.rdropWhile_prefix isWS (l.dropWhile isWS)
  rcases hB : (l.dropWhile isWS).rdropWhile isWS with _ | ⟨b, bs⟩
  · simp
  · rw [hB] at ht
    have hA : l.dropWhile isWS = b :: (bs ++ t) := by rw [← ht]; rfl
    have hq : (l.dropWhile isWS).head? = some b := by rw [hA]; rfl
    have hf : isWS b = false := by
      simpa [hq] using List.head?_dropWhile_not isWS l
    rw [List.dropWhile_cons_of_neg (by simp [hf]), ← hB]
    exact List.rdropWhile_idempotent _ _

theorem jsTrim_idem (s : String) : jsTrim (jsTrim s) = jsTrim s := by
  unfold jsTrim
  congr 1
  exact trimChars_idem s.data

theorem normTag_idem (s : String) : normTag (normTag s) = normTag s := by
  unfold normTag
  rw [jsTrim_lowerStr, lowerStr_idem, jsTrim_idem]

theorem dedupEGo_map_estr : ∀ (l seen : List String),
    dedupEGo seen (l.map EVal.estr) = (jsDedupGo seen l).map EVal.estr
  | [], _ => rfl
  | a :: as, seen => by
    simp only [List.map_cons, dedupEGo, jsDedupGo]
    by_cases h : a ∈ seen
    · rw [if_pos h, if_pos h]
      exact dedupEGo_map_estr as seen
    · rw [if_neg h, if_neg h, dedupEGo_map_estr as (a :: seen)]
      rfl

theorem allStrs_map_estr : ∀ l : List String, allStrs (l.map EVal.estr) = some l
  | [] => rfl
  | a :: as => by simp [allStrs, allStrs_map_estr as]

theorem extract_map_sstr (a : String) (l : List String) :
    extractSegs (some ((a :: l).map SegVal.sstr)) = (a :: l).map EVal.estr := by
  have hg : segRawE ∘ SegVal.sstr = EVal.estr := funext fun _ => rfl
  rw [List.map_cons]
  show (SegVal.sstr a :: l.map SegVal.sstr).map segRawE = _
  rw [List.map_cons, List.map_map, hg, List.map_cons]
  rfl

end NormalizationLemmas

section TagLemmas

theorem tagBody_skip (tag : String) (segs : Option (List SegVal)) (p1 p2 : PatchOutcome)
    (existing : List String)
    (hstrs : allStrs (dedupE ((extractSegs segs).filter truthyE)) = some existing)
    (hmem : normTag tag ∈ existing.map normTag) :
    tagBody tag ⟨.mok segs, p1, p2⟩ = .ok ⟨true, 0, none⟩ := by
  unfold tagBody
  dsimp only
  by_cases h1 : normTag tag = ""
  · rw [if_pos h1]
  · rw [if_neg h1, hstrs]
    dsimp only
    rw [if_pos (show ((existing.map normTag).contains (normTag tag)) = true from
      List.elem_eq_true_of_mem hmem)]

theorem tagBody_write (tag : String) (segs : Option (List SegVal)) (existing : List String)
    (hstrs : allStrs (dedupE ((extractSegs segs).filter truthyE)) = some existing)
    (h1 : normTag tag ≠ "")
    (hc : normTag tag ∉ existing.map normTag) :
    tagBody tag ⟨.mok segs, .pok, .pok⟩ =
      .ok ⟨true, 1,
        some (jsDedup (((existing ++ [normTag tag]).map normTag).filter (· ≠ "")))⟩ := by
  unfold tagBody
  dsimp only
  rw [if_neg h1, hstrs]
  dsimp only
  rw [if_neg (show ¬((existing.map normTag).contains (normTag tag)) = true from
    fun hcc => hc (List.mem_of_elem_eq_true hcc))]

theorem merged_facts (tag : String) (existing : List String) (h1 : normTag tag ≠ "") :
    normTag tag ∈ jsDedup (((existing ++ [normTag tag]).map normTag).filter (· ≠ "")) ∧
    (∀ x ∈ jsDedup (((existing ++ [normTag tag]).map normTag).filter (· ≠ "")), x ≠ "") := by
  constructor
  · rw [mem_jsDedup, List.mem_filter]
    refine ⟨List.mem_map.mpr ⟨normTag tag, by simp, normTag_idem tag⟩, by simpa using h1⟩
  · intro x hx
    rw [mem_jsDedup] at hx
    simpa using (List.mem_filter.mp hx).2

theorem second_extract (x : String) (xs : List String)
    (hne : ∀ y ∈ x :: xs, y ≠ "") (hnd : (x :: xs).Nodup) :
    allStrs (dedupE ((extractSegs (some ((x :: xs).map SegVal.sstr))).filter truthyE)) =
      some (x :: xs) := by
  rw [extract_map_sstr, List.filter_map]
  have hfil : (x :: xs).filter (truthyE ∘ EVal.estr) = x :: xs := by
    rw [List.filter_eq_self]
    intro a ha
    simpa [truthyE, Function.comp] using hne a ha
  rw [hfil]
  rw [show dedupE ((x :: xs).map EVal.estr) = (jsDedup (x :: xs)).map EVal.estr from
    dedupEGo_map_estr (x :: xs) []]
  rw [jsDedup_of_nodup _ hnd, allStrs_map_estr]

theorem tagSkip (tag : String) (env : TagEnv) (segs : Option (List SegVal))
    (existing : List String)
    (hmeta : env.meta = .mok segs)
    (hstrs : allStrs (dedupE ((extractSegs segs).filter truthyE)) = some existing)
    (hmem : normTag tag ∈ existing.map normTag) :
    (getOk (tagCrispConversation tag env)).patchCalls = 0 := by
  rcases env with ⟨meta, p1, p2⟩
  dsimp only at hmeta
  subst hmeta
  show (getOk (jsCatchAll (tagBody tag ⟨.mok segs, p1, p2⟩) id)).patchCalls = 0
  rw [tagBody_skip tag segs p1 p2 existing hstrs hmem]
  rfl

end TagLemmas

section ClaimC4

/-- C4: tag application is idempotent.  First part: whenever the metadata
GET succeeds and the existing segments normalize (trim + lowercase) to a
set already containing the normalized new tag, no PATCH (mutating write)
is issued.  Second part: a successful tag-apply sends some merged string
array with exactly one PATCH, and re-applying the same tag to a
conversation now carrying that array issues zero PATCH calls — so
applying the same tag twice results in exactly one write. -/
theorem c4_tag_idempotent :
    (∀ (tag : String) (env : TagEnv) (segs : Option (List SegVal)) (existing : List String),
      env.meta = .mok segs →
      allStrs (dedupE ((extractSegs segs).filter truthyE)) = some existing →
      normTag tag ∈ existing.map normTag →
      (getOk (tagCrispConversation tag env)).patchCalls = 0) ∧
    (∀ (tag : String) (segs : Option (List SegVal)) (m : List String) (p2 p3 : PatchOutcome),
      (getOk (tagCrispConversation tag ⟨.mok segs, .pok, .pok⟩)).sentSegments = some m →
      (getOk (tagCrispConversation tag ⟨.mok segs, .pok, .pok⟩)).patchCalls = 1 ∧
      (getOk (tagCrispConversation tag ⟨.mok (some (m.map SegVal.sstr)), p2, p3⟩)).patchCalls
        = 0) := by
  refine ⟨fun tag env segs existing hmeta hstrs hmem =>
    tagSkip tag env segs existing hmeta hstrs hmem,
    fun tag segs m p2 p3 hsent => ?_⟩
  cases hA : allStrs (dedupE ((extractSegs segs).filter truthyE)) with
  | none =>
    exfalso
    have hnone : (getOk (tagCrispConversation tag ⟨.mok segs, .pok, .pok⟩)).sentSegments
        = none := by
      show (getOk (jsCatchAll (tagBody tag ⟨.mok segs, .pok, .pok⟩) id)).sentSegments = none
      unfold tagBody
      dsimp only
      by_cases h1 : normTag tag = ""
      · rw [if_pos h1]
        rfl
      · rw [if_neg h1, hA]
        rfl
    rw [hnone] at hsent
    exact Option.noConfusion hsent
  | some existing =>
    by_cases h1 : normTag tag = ""
    · exfalso
      have hnone : (getOk (tagCrispConversation tag ⟨.mok segs, .pok, .pok⟩)).sentSegments
          = none := by
        show (getOk (jsCatchAll (tagBody tag ⟨.mok segs, .pok, .pok⟩) id)).sentSegments = none
        unfold tagBody
        dsimp only
        rw [if_pos h1]
        rfl
      rw [hnone] at hsent
      exact Option.noConfusion hsent
    · by_cases hc : normTag tag ∈ existing.map normTag
      · exfalso
        have hnone : (getOk (tagCrispConversation tag ⟨.mok segs, .pok, .pok⟩)).sentSegments
            = none := by
          show (getOk (jsCatchAll (tagBody tag ⟨.mok segs, .pok, .pok⟩) id)).sentSegments = none
          rw [tagBody_skip tag segs .pok .pok existing hA hc]
          rfl
        rw [hnone] at hsent
        exact Option.noConfusion hsent
      · have hre : getOk (tagCrispConversation tag ⟨.mok segs, .pok, .pok⟩) =
            ⟨true, 1,
              some (jsDedup (((existing ++ [normTag tag]).map normTag).filter (· ≠ "")))⟩ := by
          show getOk (jsCatchAll (tagBody tag ⟨.mok segs, .pok, .pok⟩) id) = _
          rw [tagBody_write tag segs existing hA h1 hc]
          rfl
        rw [hre] at hsent
        dsimp only at hsent
        injection hsent with hm
        obtain ⟨hmm, hne⟩ := merged_facts tag existing h1
        refine ⟨by rw [hre], ?_⟩
        rw [hm] at hmm hne
        rcases hM : m with _ | ⟨x, xs⟩
        · rw [hM] at hmm
          exact absurd hmm (List.not_mem_nil _)
        · rw [hM] at hmm hne
          have hnd : (x :: xs).Nodup := by
            rw [← hM, ← hm]
            exact nodup_jsDedup _
          exact tagSkip tag _ (some ((x :: xs).map SegVal.sstr)) (x :: xs) rfl
            (second_extract x xs hne hnd)
            (List.mem_map.mpr ⟨normTag tag, hmm, normTag_idem tag⟩)

/-- Concrete instance of C4: the already-present tag (modulo case and
whitespace) is skipped with zero writes, and a fresh tag is applied with
exactly one write, the second application then writing nothing. -/
theorem c4_tag_idempotent_witness :
    (getOk (tagCrispConversation "Urgent"
      ⟨.mok (some [.sstr "urgent"]), .pok, .pok⟩)).patchCalls = 0 ∧
    (getOk (tagCrispConversation "urgent"
      ⟨.mok (some []), .pok, .pok⟩)).patchCalls = 1 ∧
    (getOk (tagCrispConversation "urgent"
      ⟨.mok (some ((["urgent"]).map SegVal.sstr)), .pok, .pok⟩)).patchCalls = 0 := by
  refine ⟨c4_tag_idempotent.1 "Urgent" _ (some [.sstr "urgent"]) ["urgent"] rfl
    (by decide) (by decide), ?_, ?_⟩
  · exact (c4_tag_idempotent.2 "urgent" (some []) ["urgent"] .pok .pok (by decide)).1
  · exact (c4_tag_idempotent.2 "urgent" (some []) ["urgent"] .pok .pok (by decide)).2

end ClaimC4

section RegexLemmas

theorem regexLiteralChars_escape : ∀ l : List Char,
    regexLiteralChars (l.flatMap fun c => if isRegexMeta c then ['\\', c] else [c]) = some l
  | [] => rfl
  | c :: rest => by
    by_cases h : isRegexMeta c = true
    · have hfm : ((c :: rest).flatMap fun c => if isRegexMeta c then ['\\', c] else [c]) =
          '\\' :: c :: (rest.flatMap fun c => if isRegexMeta c then ['\\', c] else [c]) := by
        simp [h]
      rw [hfm]
      unfold regexLiteralChars
      rw [if_pos rfl]
      dsimp only
      rw [if_pos h, regexLiteralChars_escape rest]
      rfl
    · have hc : ¬(c = '\\') := by
        intro he
        subst he
        exact h (by decide)
      have hfm : ((c :: rest).flatMap fun c => if isRegexMeta c then ['\\', c] else [c]) =
          c :: (rest.flatMap fun c => if isRegexMeta c then ['\\', c] else [c]) := by
        simp [h]
      rw [hfm]
      unfold regexLiteralChars
      rw [if_neg hc, if_neg h, regexLiteralChars_escape rest]
      rfl

theorem regexLiteralChars_escapeStr (w : String) :
    regexLiteralChars (escapeRegExp w).data = some w.data :=
  regexLiteralChars_escape w.data

theorem wordChar_not_meta (c : Char) (h : isWordChar c = true) : isRegexMeta c = false := by
  by_contra hm
  rw [Bool.not_eq_false] at hm
  have hmem : c ∈ ['.', '*', '+', '?', '^', '$', '{', '}', '(', ')', '|', '[', ']', '\\'] :=
    of_decide_eq_true hm
  fin_cases hmem <;> exact absurd h (by decide)

theorem flatMap_escape_id (l : List Char) (h : ∀ c ∈ l, isRegexMeta c = false) :
    (l.flatMap fun c => if isRegexMeta c then ['\\', c] else [c]) = l := by
  induction l with
  | nil => rfl
  | cons c rest ih =>
    have hc := h c (List.mem_cons_self _ _)
    simp only [List.flatMap_cons, hc]
    rw [ih fun x hx => h x (List.mem_cons_of_mem _ hx)]
    rfl

theorem escape_word_fixed (w : String) (h : ∀ c ∈ w.data, isWordChar c = true) :
    escapeRegExp w = w := by
  unfold escapeRegExp
  rw [flatMap_escape_id w.data fun c hc => wordChar_not_meta c (h c hc)]

theorem tokenizeAux_wordChars : ∀ (l acc : List Char),
    (∀ c ∈ acc, isWordChar c = true) →
    ∀ t ∈ tokenizeAux l acc, ∀ c ∈ t, isWordChar c = true
  | [], acc, hacc, t, ht, c, hc => by
    cases acc with
    | nil => exact absurd ht (List.not_mem_nil _)
    | cons a as =>
      have := List.mem_singleton.mp ht
      subst this
      exact hacc c (List.mem_reverse.mp hc)
  | c0 :: rest, acc, hacc, t, ht, c, hc => by
    unfold tokenizeAux at ht
    by_cases h : isWordChar c0 = true
    · rw [if_pos h] at ht
      refine tokenizeAux_wordChars rest (c0 :: acc) ?_ t ht c hc
      intro x hx
      rcases List.mem_cons.mp hx with rfl | hx
      · exact h
      · exact hacc x hx
    · rw [if_neg h] at ht
      by_cases ha : acc = []
      · rw [if_pos ha] at ht
        exact tokenizeAux_wordChars rest [] (by simp) t ht c hc
      · rw [if_neg ha] at ht
        rcases List.mem_cons.mp ht with rfl | ht
        · exact hacc c (List.mem_reverse.mp hc)
        · exact tokenizeAux_wordChars rest [] (by simp) t ht c hc

theorem scan_wordChars (wl : List String) (msg : String) (w : String)
    (hw : w ∈ scan wl msg) : ∀ c ∈ w.data, isWordChar c = true := by
  unfold scan getAllProfanitiesInMessage at hw
  dsimp only at hw
  split_ifs at hw
  any_goals exact absurd hw (List.not_mem_nil _)
  · have hw2 := (List.mem_filter.mp hw).1
    unfold jsTokens at hw2
    obtain ⟨t, htok, rfl⟩ := List.mem_map.mp hw2
    exact tokenizeAux_wordChars msg.data [] (by simp) t htok

theorem filter_star_cons_star (l : List Char) :
    ('*' :: l).filter (· ≠ '*') = l.filter (· ≠ '*') := by
  simp

theorem replaceScan_filter_star : ∀ (fuel : Nat) (lit : List Char) (prev : Option Char)
    (text : List Char),
    (replaceScan fuel lit prev text).filter (· ≠ '*') = text.filter (· ≠ '*')
  | 0, _, _, _ => rfl
  | _ + 1, _, _, [] => rfl
  | fuel + 1, lit, prev, c :: rest => by
    unfold replaceScan
    split_ifs with h
    · rw [filter_star_cons_star, filter_star_cons_star, List.filter_append,
        filter_star_cons_star, filter_star_cons_star,
        replaceScan_filter_star fuel lit _ _, ← List.filter_append,
        List.take_append_drop]
    · rw [List.filter_cons, List.filter_cons, replaceScan_filter_star fuel lit (some c) rest]

theorem jsReplaceWordCI_filter_star (word text : String) :
    (jsReplaceWordCI word text).data.filter (· ≠ '*') = text.data.filter (· ≠ '*') := by
  unfold jsReplaceWordCI
  split_ifs with h
  · rfl
  · split
    · exact replaceScan_filter_star _ _ none text.data
    · rfl

theorem foldl_replace_filter_star (ws : List String) :
    ∀ acc : String,
      ((ws.foldl (fun a w => jsReplaceWordCI w a) acc).data.filter (· ≠ '*')) =
        acc.data.filter (· ≠ '*') := by
  induction ws with
  | nil => intro _; rfl
  | cons w ws ih =>
    intro acc
    rw [List.foldl_cons, ih (jsReplaceWordCI w acc), jsReplaceWordCI_filter_star]

theorem highlight_filter_star (cfg : PluginConfig) (wl : List String) (msg : String) :
    (highlightProfanity cfg wl msg).data.filter (· ≠ '*') = msg.data.filter (· ≠ '*') := by
  unfold highlightProfanity
  by_cases h1 : (!cfg.highlightProfanity) = true
  · rw [if_pos h1]
  · rw [if_neg h1]
    dsimp only
    by_cases h2 : scan wl msg = []
    · rw [if_pos h2]
    · rw [if_neg h2]
      exact foldl_replace_filter_star _ msg

end RegexLemmas

section ClaimC6

/-- C6: matched-term emphasis.  Escaping a term always yields a pattern
matching exactly that term literally, so special characters are never
interpreted as pattern syntax; matched terms consist only of word
characters, so escaping leaves them unchanged; with highlighting disabled
the message is returned untouched; the wrapping only inserts `*` markers
(deleting every `*` recovers the original text, so the original value is
never mutated and the highlighted string is a rendering copy); the
dispatched alert carries the highlighted copy while the matched terms are
computed from the original message; and the concrete checks show the
replacement is whole-word, case-insensitive and literal on a
metacharacter word. -/
theorem c6_highlight_escaping :
    (∀ w : String, regexLiteralChars (escapeRegExp w).data = some w.data) ∧
    (∀ (wordList : List String) (msg w : String),
      w ∈ scan wordList msg → escapeRegExp w = w) ∧
    (∀ (cfg : PluginConfig) (wordList : List String) (msg : String),
      cfg.highlightProfanity = false → highlightProfanity cfg wordList msg = msg) ∧
    (∀ (cfg : PluginConfig) (wordList : List String) (msg : String),
      (highlightProfanity cfg wordList msg).data.filter (· ≠ '*') =
        msg.data.filter (· ≠ '*')) ∧
    (∀ (cfg : PluginConfig) (wordList : List String) (content : String) (score : JSNumber)
      (env : AlertEnv),
      (dispatchAlert cfg wordList content score env).highlightedMessage =
        highlightProfanity cfg wordList content ∧
      (dispatchAlert cfg wordList content score env).matchedTerms =
        jsDedup (scan wordList content)) ∧
    highlightProfanity cfgHighlight ["idiot"] "You IDIOT!" = "You **IDIOT**!" ∧
    highlightProfanity cfgHighlight ["ass"] "ass passing" = "**ass** passing" ∧
    jsReplaceWordCI "c++" "a c++x b" = "a **c++**x b" := by
  refine ⟨regexLiteralChars_escapeStr,
    fun wl msg w hw => escape_word_fixed w (scan_wordChars wl msg w hw),
    fun cfg wl msg h => ?_, highlight_filter_star,
    fun _ _ _ _ _ => ⟨rfl, rfl⟩,
    by decide, by decide, by decide⟩
  unfold highlightProfanity
  rw [if_pos (by rw [h]; rfl)]

/-- Concrete instance of C6: a genuinely matched term passes through the
escape unchanged, and highlighting disabled leaves the message alone. -/
theorem c6_highlight_escaping_witness :
    escapeRegExp "idiot" = "idiot" ∧
    highlightProfanity defaultPluginConfig ["idiot"] "you idiot" = "you idiot" :=
  ⟨c6_highlight_escaping.2.1 ["idiot"] "you idiot" "idiot" (by decide),
    c6_highlight_escaping.2.2.1 defaultPluginConfig ["idiot"] "you idiot" rfl⟩

end ClaimC6

end CrispTone
